import Mathlib

/-!
Verification of the Orbitix travel-assistant chat frontend: the client-side
stream assembly (frontend/src/utils/api.ts and the streaming callbacks in
frontend/src/App.tsx), the browser-local stores (frontend/src/utils/storage.ts
and the raw-IndexedDB LocalDB), and the chat-context sync coordinator.

JavaScript strings are modeled as Lean strings; the handful of JS string
primitives the code uses (split on a single character, startsWith, slice,
substring, trim) are given explicit executable definitions over the character
list, since they operate per code unit.  Timestamps (JS Date values and their
ISO renderings) are modeled as natural numbers: the code only ever compares
them, and ISO-8601 rendering of dates is monotone.  IndexedDB object stores
are modeled as association lists keyed by the record key; getAll returns
values in ascending key order, exactly as IndexedDB does.
-/

/-- JS String.prototype.split with a single-character separator, on the
character list.  Splitting the empty list yields one empty piece, as in JS. -/
def jsSplitAux (sep : Char) : List Char → List (List Char)
  | [] => [[]]
  | c :: cs =>
    let r := jsSplitAux sep cs
    if c = sep then [] :: r
    else
      match r with
      | [] => [[c]]
      | h :: t => (c :: h) :: t

/-- JS String.prototype.split with a single-character separator. -/
def jsSplit (sep : Char) (s : String) : List String :=
  (jsSplitAux sep s.data).map String.mk

/-- JS String.prototype.startsWith. -/
def jsStartsWith (s pre : String) : Bool :=
  s.data.take pre.data.length = pre.data

/-- JS String.prototype.slice(n) — drop the first n code units. -/
def jsSlice (s : String) (n : Nat) : String :=
  ⟨s.data.drop n⟩

/-- JS String.prototype.substring(0, n) / slice(0, n) — take the first n code
units. -/
def jsTake (s : String) (n : Nat) : String :=
  ⟨s.data.take n⟩

/-- JS String.prototype.trim: strip leading and trailing whitespace. -/
def jsTrim (s : String) : String :=
  ⟨((s.data.dropWhile Char.isWhitespace).reverse.dropWhile Char.isWhitespace).reverse⟩

/-- A JSON value as it occurs in the streaming protocol: every field of a
stream event is a string or a (non-negative integer) number.  Nested values
do not occur in the protocol and make the parse fail, which is conservative
for the lines considered here. -/
inductive JsonVal where
  | str : String → JsonVal
  | num : Nat → JsonVal
deriving DecidableEq

/-- A parsed JSON object: the field list in source order.  The protocol never
repeats a key. -/
abbrev JsonObj := List (String × JsonVal)

/-- Key lookup in an association list keyed by strings (first match). -/
def lookupKV {α : Type} : List (String × α) → String → Option α
  | [], _ => none
  | e :: t, k => if e.1 = k then some e.2 else lookupKV t k

/-- JS property access on a parsed stream event (data.type, data.content, …);
absent fields read as undefined, modeled by none. -/
def jsonGet (j : JsonObj) (k : String) : Option JsonVal :=
  lookupKV j k

/-- JS string coercion of a field value, as performed by the + operator in
the accumulator updates: strings unchanged, numbers rendered in decimal,
undefined rendered as the string undefined. -/
def jsToString : Option JsonVal → String
  | some (.str s) => s
  | some (.num n) => toString n
  | none => "undefined"

/-- Parse the body of a JSON string literal (the opening quote already
consumed), returning the characters and the rest.  Escape sequences do not
occur in the protocol's lines and make the parse fail. -/
def parseJString : List Char → Option (List Char × List Char)
  | [] => none
  | c :: cs =>
    if c = '"' then some ([], cs)
    else if c = '\\' then none
    else (parseJString cs).map fun r => (c :: r.1, r.2)

/-- Decimal digits to a natural number. -/
def digitsToNat (ds : List Char) : Nat :=
  ds.foldl (fun n c => n * 10 + (c.toNat - 48)) 0

/-- Parse one JSON value: a string literal or a non-negative integer. -/
def parseJVal (cs : List Char) : Option (JsonVal × List Char) :=
  match cs with
  | '"' :: cs' => (parseJString cs').map fun r => (JsonVal.str ⟨r.1⟩, r.2)
  | _ =>
    match cs.span (·.isDigit) with
    | ([], _) => none
    | (ds, rest) => some (JsonVal.num (digitsToNat ds), rest)

/-- Parse one key-value member of a JSON object. -/
def parseJPair (cs : List Char) : Option ((String × JsonVal) × List Char) :=
  match cs with
  | '"' :: cs' =>
    match parseJString cs' with
    | some (k, ':' :: r2) =>
      (parseJVal r2).map fun r => ((⟨k⟩, r.1), r.2)
    | _ => none
  | _ => none

/-- Parse the comma-separated members of a JSON object up to the closing
brace; fuel bounds the recursion by the input length. -/
def parseJPairs : Nat → List Char → Option (JsonObj × List Char)
  | 0, _ => none
  | fuel + 1, cs =>
    match parseJPair cs with
    | none => none
    | some (p, r1) =>
      match r1 with
      | ',' :: r2 =>
        match parseJPairs fuel r2 with
        | some (ps, r3) => some (p :: ps, r3)
        | none => none
      | '\x7d' :: r2 => some ([p], r2)
      | _ => none

/-- JSON.parse as applied to one stream line's payload: accepts exactly a
flat object of string/number fields with no surrounding or interior
whitespace (the protocol's events are emitted in this form) and no trailing
characters; everything else throws in the source, modeled by none. -/
def jsonParse (s : String) : Option JsonObj :=
  match s.data with
  | '\x7b' :: '\x7d' :: r => if r = [] then some [] else none
  | '\x7b' :: r =>
    match parseJPairs (r.length + 1) r with
    | some (ps, []) => some ps
    | _ => none
  | _ => none

/-- Decoding of one line of the stream, as in the chunk loop of
parseSSEStream (frontend/src/utils/api.ts): lines with the data prefix are
JSON-parsed and delivered to onChunk; a parse failure is only logged and the
line is skipped; lines without the prefix are ignored. -/
def sseLineEvents (line : String) : List JsonObj :=
  if jsStartsWith line "data: " then
    match jsonParse (jsSlice line 6) with
    | some j => [j]
    | none => []
  else []

/-- parseSSEStream (frontend/src/utils/api.ts): each chunk of the response
body is decoded to text and split on newlines in isolation — no carry of a
partial trailing line to the next chunk — and every data-prefixed line is
parsed and delivered in order. -/
def parseSSEStream (chunks : List String) : List JsonObj :=
  chunks.flatMap fun chunk => (jsSplit '\n' chunk).flatMap sseLineEvents

/-- Attachment record (frontend/src/types.ts); type is one of image, pdf,
file. -/
structure Attachment where
  id : String
  name : String
  type : String
  size : Nat
  url : Option String := none
deriving DecidableEq

/-- Message record (frontend/src/types.ts together with the fields App.tsx
actually writes): streamType holds the raw runtime value of the last event's
type field, reasoning_content the auxiliary reasoning channel, and chat_id is
filled in by ChatStorage.addMessage.  App.tsx stores its creation Date in a
timestamp field. -/
structure Message where
  id : String
  role : String
  content : String
  timestamp : Nat := 0
  attachments : List Attachment := []
  isStreaming : Bool := false
  streamType : Option JsonVal := none
  reasoning_content : Option String := none
  chat_id : Option String := none
deriving DecidableEq

/-- The onChunk callback of App.tsx handleSendMessage, applied to one decoded
event: reasoning events append to the reasoning channel (initialised from the
possibly-absent field), response events append to the content channel, and in
every case streamType is overwritten with the event's type field. -/
def applyEvent (m : Message) (j : JsonObj) : Message :=
  if jsonGet j "type" = some (JsonVal.str "reasoning") then
    { m with
      reasoning_content := some ((m.reasoning_content.getD "") ++ jsToString (jsonGet j "content"))
      streamType := jsonGet j "type" }
  else if jsonGet j "type" = some (JsonVal.str "response") then
    { m with
      content := m.content ++ jsToString (jsonGet j "content")
      streamType := jsonGet j "type" }
  else
    { m with streamType := jsonGet j "type" }

/-- Chat record (frontend/src/types.ts); user_id is never set by App.tsx, so
the preview derivation reads it as undefined. -/
structure Chat where
  id : String
  title : String
  messages : List Message
  createdAt : Nat
  updatedAt : Nat
  user_id : Option String := none
deriving DecidableEq

/-- ChatPreview record (frontend/src/types.ts). -/
structure ChatPreview where
  id : String
  user_id : Option String
  title : String
  created_at : Nat
  updated_at : Nat
  preview : Option String := none
  messageCount : Option Nat := none
  lastMessage : Option String := none
deriving DecidableEq

/-- Remove the record under a key (IDBObjectStore.delete). -/
def eraseKV {α : Type} : List (String × α) → String → List (String × α)
  | [], _ => []
  | e :: t, k => if e.1 = k then eraseKV t k else e :: eraseKV t k

/-- Insert or overwrite a record under a key in an IndexedDB object store
(IDBObjectStore.put). -/
def putKV {α : Type} (l : List (String × α)) (k : String) (v : α) : List (String × α) :=
  (k, v) :: eraseKV l k

/-- Strict lexicographic comparison of strings by code unit, the IndexedDB
ordering of string keys. -/
def keyLt : List Char → List Char → Bool
  | [], [] => false
  | [], _ :: _ => true
  | _ :: _, [] => false
  | a :: as, b :: bs => a.toNat < b.toNat || (a.toNat = b.toNat && keyLt as bs)

/-- Non-strict key comparison. -/
def keyLe (a b : String) : Bool :=
  !(keyLt b.data a.data)

/-- IndexedDB enumeration order: records sorted by ascending key (a stable
sort of the association list; keys are unique, so stability is irrelevant). -/
def sortByKey {α : Type} (l : List (String × α)) : List (String × α) :=
  l.insertionSort fun a b => keyLe a.1 b.1 = true

/-- The chat-db database of frontend/src/utils/storage.ts: object stores
chats and chatPreviews keyed by chat id, and messages keyed by message id
with the by-chat index on the chat_id field. -/
structure DB where
  chats : List (String × Chat) := []
  chatPreviews : List (String × ChatPreview) := []
  messages : List (String × Message) := []
deriving DecidableEq

namespace ChatStorage

/-- The denormalized preview recomputed by saveChat: last message's first 100
content code units (empty when there is none), the chat's timestamps and
message count. -/
def mkPreview (chat : Chat) : ChatPreview :=
  { id := chat.id
    user_id := chat.user_id
    title := chat.title
    preview := some ((chat.messages.getLast?.map fun m => jsTake m.content 100).getD "")
    created_at := chat.createdAt
    updated_at := chat.updatedAt
    messageCount := some chat.messages.length }

/-- ChatStorage.saveChat: put the chat record, then put the recomputed
preview record, both under the chat's id. -/
def saveChat (db : DB) (chat : Chat) : DB :=
  let db1 := { db with chats := putKV db.chats chat.id chat }
  { db1 with chatPreviews := putKV db1.chatPreviews chat.id (mkPreview chat) }

/-- ChatStorage.getChat: key lookup in the chats store, null when absent. -/
def getChat (db : DB) (chatId : String) : Option Chat :=
  lookupKV db.chats chatId

/-- ChatStorage.getAllChatPreviews: getAll over the preview store, in key
order. -/
def getAllChatPreviews (db : DB) : List ChatPreview :=
  (sortByKey db.chatPreviews).map Prod.snd

/-- ChatStorage.getMessages: getAll on the by-chat index, which yields the
matching records in ascending primary-key (message id) order — the code
applies no sort of its own. -/
def getMessages (db : DB) (chatId : String) : List Message :=
  (sortByKey (db.messages.filter fun e => e.2.chat_id = some chatId)).map Prod.snd

/-- ChatStorage.addMessage: put the message (chat_id filled in) under its id,
then re-save the owning chat with the message appended, if it exists. -/
def addMessage (db : DB) (chatId : String) (message : Message) (now : Nat) : DB :=
  let db1 := { db with messages := putKV db.messages message.id { message with chat_id := some chatId } }
  match getChat db1 chatId with
  | some chat => saveChat db1 { chat with messages := chat.messages ++ [message], updatedAt := now }
  | none => db1

/-- ChatStorage.deleteChat, as the sequence of store states at its await
boundaries: the chat record is deleted, then the preview record, then — in a
separate transaction — the messages found by the by-chat index are deleted
one by one.  Each listed state is observable by code scheduled between the
awaited operations. -/
def deleteChatTrace (db : DB) (chatId : String) : List DB :=
  let db1 := { db with chats := eraseKV db.chats chatId }
  let db2 := { db1 with chatPreviews := eraseKV db1.chatPreviews chatId }
  let msgs := getMessages db2 chatId
  db :: db1 :: msgs.scanl (fun st m => { st with messages := eraseKV st.messages m.id }) db2

/-- ChatStorage.deleteChat: the final state of the deletion sequence. -/
def deleteChat (db : DB) (chatId : String) : DB :=
  let db1 := { db with chats := eraseKV db.chats chatId }
  let db2 := { db1 with chatPreviews := eraseKV db1.chatPreviews chatId }
  let msgs := getMessages db2 chatId
  msgs.foldl (fun st m => { st with messages := eraseKV st.messages m.id }) db2

end ChatStorage

/-- How the streamed response body ends: a normal end-of-stream (the reader
reports done, firing onComplete) or a read failure mid-stream (the reader
throws, firing onError with the failure message and skipping onComplete). -/
inductive StreamEnd where
  | done
  | netFail : String → StreamEnd
deriving DecidableEq

/-- The component state App.tsx is left in after handleSendMessage finishes:
the persistent store, the error banner text, the transient streaming message,
and the current chat. -/
structure SendOutcome where
  db : DB
  error : Option String
  streamingMessage : Option Message
  currentChat : Option Chat
deriving DecidableEq

namespace App

/-- handleNewChat (frontend/src/App.tsx): createNewChat generates a chat id
locally (dummy API mode — no remote call is involved), the fresh chat record
is written to ChatStorage, and the chat history is re-read from the preview
store. -/
def handleNewChat (db : DB) (chatId : String) (now : Nat) : DB × Chat :=
  let newChat : Chat :=
    { id := chatId, title := "New Chat", messages := [], createdAt := now, updatedAt := now }
  (ChatStorage.saveChat db newChat, newChat)

/-- handleSendMessage (frontend/src/App.tsx), for a given current chat: the
user message is appended to the chat (the title becoming the first 50 content
code units if this is the chat's first message) and persisted; the fresh
assistant message then accumulates the decoded stream events via onChunk.  If
the read fails, onError records the error and the accumulated assistant
message is dropped; on a normal end of stream, onComplete freezes the
assistant message and persists the chat with it appended.  The Date values
taken during the call are summarised by the single instant now; userMsgId and
asstMsgId stand for the two crypto.randomUUID() results. -/
def handleSendMessage (db : DB) (chatToUpdate : Chat) (content : String)
    (attachments : List Attachment) (userMsgId asstMsgId : String) (now : Nat)
    (chunks : List String) (ending : StreamEnd) : SendOutcome :=
  let userMessage : Message :=
    { id := userMsgId, role := "user", content := content, timestamp := now
      attachments := attachments }
  let isFirstMessage := chatToUpdate.messages.length = 0
  let updatedChat : Chat :=
    { chatToUpdate with
      messages := chatToUpdate.messages ++ [userMessage]
      title := if isFirstMessage then jsTake content 50 else chatToUpdate.title
      updatedAt := now }
  let db1 := ChatStorage.saveChat db updatedChat
  let assistantMessage0 : Message :=
    { id := asstMsgId, role := "assistant", content := "", timestamp := now
      isStreaming := true }
  let assistantMessage := (parseSSEStream chunks).foldl applyEvent assistantMessage0
  match ending with
  | .netFail msg =>
    { db := db1, error := some msg, streamingMessage := none, currentChat := some updatedChat }
  | .done =>
    let finalAssistant := { assistantMessage with isStreaming := false }
    let finalChat : Chat :=
      { updatedChat with messages := updatedChat.messages ++ [finalAssistant], updatedAt := now }
    { db := ChatStorage.saveChat db1 finalChat, error := none
      streamingMessage := none, currentChat := some finalChat }

end App

/-- The submit guard of ChatInput.handleSubmit (frontend/src/components/
ChatInput.tsx): the send fires unless the trimmed text is empty with no
attachments, or the input is streaming, disabled or uploading.  In
particular, a message with empty trimmed text but at least one attachment is
sent, with the trimmed (empty) text as its content. -/
def handleSubmitAllows (message : String) (attachments : List Attachment)
    (isStreaming disabled isUploading : Bool) : Bool :=
  !(((jsTrim message == "") && attachments.isEmpty) || isStreaming || disabled || isUploading)

/-- MessageData record (the localDB module): the message rows of the
orbitix-chat-db database, keyed in line by their id field. -/
structure MessageData where
  id : String
  chat_id : String
  user_id : String
  role : String
  content : String
  created_at : Nat
  attachments : List Attachment := []
deriving DecidableEq

/-- The orbitix-chat-db database of the localDB module: a chats store keyed
in line by id (holding the ChatPreview-shaped records the callers pass in,
whose fields include the ChatData columns) and a messages store keyed in
line by id, with a non-unique index on chat_id. -/
structure LocalDBState where
  chats : List (String × ChatPreview) := []
  messages : List (String × MessageData) := []
deriving DecidableEq

namespace LocalDB

/-- LocalDB.saveChat: a single readwrite transaction putting the record under
its own id. -/
def saveChat (db : LocalDBState) (chat : ChatPreview) : LocalDBState :=
  { db with chats := putKV db.chats chat.id chat }

/-- LocalDB.saveMessage: a single readwrite transaction putting the record
under its own id. -/
def saveMessage (db : LocalDBState) (message : MessageData) : LocalDBState :=
  { db with messages := putKV db.messages message.id message }

/-- LocalDB.getMessages: getAll on the chat_id index (ascending id order),
then an explicit stable sort by ascending created_at. -/
def getMessages (db : LocalDBState) (chatId : String) : List MessageData :=
  let fromIndex := (sortByKey (db.messages.filter fun e => e.2.chat_id = chatId)).map Prod.snd
  fromIndex.insertionSort fun a b => a.created_at ≤ b.created_at

/-- LocalDB.deleteChat: one readwrite transaction over both stores that
deletes the chat record and walks the chat_id index deleting every matching
message by primary key; the transaction commits (and the promise resolves)
only once all deletions are done, so the whole removal is a single state
transition. -/
def deleteChat (db : LocalDBState) (chatId : String) : LocalDBState :=
  { db with
    chats := eraseKV db.chats chatId
    messages := db.messages.filter fun e => e.2.chat_id ≠ chatId }

end LocalDB

namespace ChatProvider

/-- The ChatProvider reducer state (the ChatContext module), restricted to
the fields createNewChat touches, together with the localDB contents. -/
structure CtxState where
  chatHistory : List ChatPreview := []
  currentChatId : Option String := none
  messages : List MessageData := []
  db : LocalDBState := {}
deriving DecidableEq

/-- createNewChat (the ChatContext module): a chat id is generated locally
with the local_ prefix, the chat is saved to localDB and prepended to the
chat history, the welcome message is saved locally, and only then is a
remote create attempted.  remote is the outcome of that Supabase insert
(none covers both a returned error and a thrown exception, which is caught
and logged); on success the local record's title is reconciled and the
current chat id switches to the remote-assigned id.  The locally generated
id is returned in every case.  userId is the ambient auth user and
welcomeContent the greeting assembled from time of day and location. -/
def createNewChat (st : CtxState) (userId : String) (now : Nat)
    (welcomeContent : String) (remote : Option ChatPreview) : CtxState × String :=
  let newChat : ChatPreview :=
    { id := "local_" ++ toString now, user_id := some userId, title := "New Chat"
      created_at := now, updated_at := now }
  let st1 : CtxState :=
    { st with
      db := LocalDB.saveChat st.db newChat
      chatHistory := newChat :: st.chatHistory
      currentChatId := some newChat.id }
  let welcomeMessage : MessageData :=
    { id := "welcome_" ++ toString now, chat_id := newChat.id, user_id := "assistant"
      role := "assistant", content := welcomeContent, created_at := now }
  let st2 : CtxState :=
    { st1 with db := LocalDB.saveMessage st1.db welcomeMessage, messages := [welcomeMessage] }
  match remote with
  | none => (st2, newChat.id)
  | some supabaseChat =>
    let st3 : CtxState :=
      { st2 with
        db := LocalDB.saveChat st2.db supabaseChat
        chatHistory := st2.chatHistory.map fun c =>
          if c.id = newChat.id then { c with title := supabaseChat.title, updated_at := now } else c
        currentChatId := some supabaseChat.id }
    (st3, newChat.id)

end ChatProvider

/-- The four whole protocol lines of the reference stream, each delivered as
its own chunk. -/
def exampleLines : List String :=
  ["data: \x7b\"type\":\"reasoning\",\"content\":\"Check\",\"sequence\":0,\"task_id\":\"t1\"\x7d\n",
   "data: \x7b\"type\":\"response\",\"content\":\"Paris\",\"sequence\":1,\"task_id\":\"t1\"\x7d\n",
   "data: \x7b\"type\":\"response\",\"content\":\" is lovely\",\"sequence\":2,\"task_id\":\"t1\"\x7d\n",
   "data: \x7b\"type\":\"end\",\"content\":\"\",\"sequence\":3,\"task_id\":\"t1\"\x7d\n"]

/-- The reference response line cut mid-word: first fragment of the chunk
boundary example. -/
def splitChunkA : String := "data: \x7b\"type\":\"respo"

/-- Second fragment of the chunk boundary example. -/
def splitChunkB : String := "nse\",\"content\":\"Paris\",\"sequence\":1,\"task_id\":\"t1\"\x7d\n"

/-- A well-formed response event line. -/
def responseLine : String :=
  "data: \x7b\"type\":\"response\",\"content\":\"Hi\",\"sequence\":0,\"task_id\":\"t1\"\x7d\n"

/-- A stream-level error event line. -/
def errorEventLine : String :=
  "data: \x7b\"type\":\"error\",\"content\":\"boom\",\"sequence\":1,\"task_id\":\"t1\"\x7d\n"

/-- A freshly created chat, as handleNewChat builds it. -/
def exampleChat : Chat :=
  { id := "c1", title := "New Chat", messages := [], createdAt := 0, updatedAt := 0 }

/-- An uploaded image attachment. -/
def exampleAttachment : Attachment :=
  { id := "att1", name := "photo.png", type := "image", size := 2048, url := some "blob:photo" }

/-- A message stored under the later key but the earlier timestamp. -/
def msgFixB : Message := { id := "b", role := "user", content := "first", timestamp := 0 }

/-- A message stored under the earlier key but the later timestamp. -/
def msgFixA : Message := { id := "a", role := "user", content := "second", timestamp := 1 }

/-- chat-db contents after adding msgFixB then msgFixA to chat c1. -/
def dbMsgOrder : DB :=
  ChatStorage.addMessage (ChatStorage.addMessage {} "c1" msgFixB 0) "c1" msgFixA 1

/-- chat-db contents holding one chat with one preview and one message, used
for the cascade-deletion runs. -/
def dbCascade : DB :=
  { chats := [("c1", { id := "c1", title := "Trip", messages := [], createdAt := 0, updatedAt := 0 })]
    chatPreviews := [("c1", { id := "c1", user_id := none, title := "Trip", created_at := 0, updated_at := 0 })]
    messages := [("m1", { id := "m1", role := "user", content := "hello", chat_id := some "c1" })] }

/-- orbitix-chat-db contents holding one chat and one message of that chat. -/
def ldbCascade : LocalDBState :=
  { chats := [("c1", { id := "c1", user_id := some "u1", title := "Trip", created_at := 0, updated_at := 0 })]
    messages := [("m1", { id := "m1", chat_id := "c1", user_id := "u1", role := "user", content := "hello", created_at := 0 })] }

/-- A chat with one message, used to exercise the preview recomputation. -/
def chatFix : Chat :=
  { id := "c2", title := "Paris plans", createdAt := 3, updatedAt := 9
    messages := [{ id := "m9", role := "user", content := "What about Paris?", timestamp := 9 }] }

/-- Looking up the key just written returns the written value. -/
theorem lookupKV_putKV_self {α : Type} (l : List (String × α)) (k : String) (v : α) :
    lookupKV (putKV l k v) k = some v := by
  simp [putKV, lookupKV]

/-- Deleting a key removes exactly that key from lookups. -/
theorem lookupKV_eraseKV {α : Type} (l : List (String × α)) (k k' : String) :
    lookupKV (eraseKV l k) k' = if k' = k then none else lookupKV l k' := by
  induction l with
  | nil => simp [lookupKV, eraseKV]
  | cons e t ih =>
    by_cases he : e.1 = k
    · by_cases h : k' = k
      · subst h
        simp [eraseKV, he, ih]
      · have hkk : ¬ k = k' := fun hc => h hc.symm
        simp [eraseKV, he, h, ih, lookupKV, hkk]
    · by_cases hq : e.1 = k'
      · have : ¬ k' = k := fun hc => he (hq.symm ▸ hc)
        simp [eraseKV, he, lookupKV, hq, this]
      · simp [eraseKV, he, lookupKV, hq, ih]

/-- Writing a key affects exactly that key in lookups. -/
theorem lookupKV_putKV {α : Type} (l : List (String × α)) (k : String) (v : α) (k' : String) :
    lookupKV (putKV l k v) k' = if k' = k then some v else lookupKV l k' := by
  by_cases h : k' = k
  · simp [putKV, lookupKV, h]
  · have hkk : ¬ k = k' := fun hc => h hc.symm
    simp [putKV, lookupKV, hkk, h, lookupKV_eraseKV]

/-- Membership after a key deletion. -/
theorem mem_eraseKV {α : Type} (l : List (String × α)) (k : String) (e : String × α) :
    e ∈ eraseKV l k ↔ e ∈ l ∧ e.1 ≠ k := by
  induction l with
  | nil => simp [eraseKV]
  | cons a t ih =>
    by_cases ha : a.1 = k
    · simp only [eraseKV, if_pos ha, ih, List.mem_cons]
      constructor
      · exact fun h => ⟨Or.inr h.1, h.2⟩
      · rintro ⟨h1 | h1, h2⟩
        · exact absurd (h1 ▸ ha) h2
        · exact ⟨h1, h2⟩
    · simp only [eraseKV, if_neg ha, List.mem_cons, ih]
      constructor
      · rintro (rfl | ⟨h1, h2⟩)
        · exact ⟨Or.inl rfl, ha⟩
        · exact ⟨Or.inr h1, h2⟩
      · rintro ⟨rfl | h1, h2⟩
        · exact Or.inl rfl
        · exact Or.inr ⟨h1, h2⟩

/-- Deleting a key twice equals deleting it once. -/
theorem eraseKV_idem {α : Type} (l : List (String × α)) (k : String) :
    eraseKV (eraseKV l k) k = eraseKV l k := by
  induction l with
  | nil => rfl
  | cons e t ih =>
    by_cases he : e.1 = k <;> simp [eraseKV, he, ih]

/-- Writing the same record twice equals writing it once. -/
theorem putKV_idem {α : Type} (l : List (String × α)) (k : String) (v : α) :
    putKV (putKV l k v) k v = putKV l k v := by
  simp [putKV, eraseKV, eraseKV_idem]

/-- No record under a deleted key remains. -/
theorem countP_eraseKV_self {α : Type} (l : List (String × α)) (k : String) :
    ((eraseKV l k).countP fun e => e.1 = k) = 0 := by
  rw [List.countP_eq_zero]
  intro e he
  have := (mem_eraseKV l k e).mp he
  simp [this.2]

/-- Exactly one record sits under a freshly written key. -/
theorem countP_putKV_self {α : Type} (l : List (String × α)) (k : String) (v : α) :
    ((putKV l k v).countP fun e => e.1 = k) = 1 := by
  simp [putKV, List.countP_cons, countP_eraseKV_self]

/-- Key-order enumeration is a permutation of the store contents. -/
theorem sortByKey_perm {α : Type} (l : List (String × α)) : (sortByKey l).Perm l :=
  List.perm_insertionSort _ l

/-- A saved chat is read back unchanged under its id. -/
theorem getChat_saveChat_self (db : DB) (c : Chat) :
    ChatStorage.getChat (ChatStorage.saveChat db c) c.id = some c := by
  simp [ChatStorage.getChat, ChatStorage.saveChat, lookupKV_putKV, if_pos rfl]

/-- getMessages returns a permutation of the stored records of that chat. -/
theorem getMessages_perm (db : DB) (chatId : String) :
    (ChatStorage.getMessages db chatId).Perm
      ((db.messages.filter fun e => e.2.chat_id = some chatId).map Prod.snd) :=
  (sortByKey_perm _).map Prod.snd

/-- The message-deletion fold of deleteChat only touches the messages
store. -/
theorem foldl_eraseMsg (msgs : List Message) (db2 : DB) :
    msgs.foldl (fun st m => { st with messages := eraseKV st.messages m.id }) db2
      = { db2 with messages := msgs.foldl (fun l m => eraseKV l m.id) db2.messages } := by
  induction msgs generalizing db2 with
  | nil => rfl
  | cons m t ih => simp [List.foldl_cons, ih]

/-- What survives a fold of key deletions was there before and is under none
of the deleted keys. -/
theorem mem_foldl_eraseKV {α : Type} :
    ∀ (ks : List String) (st : List (String × α)) (e : String × α),
      e ∈ ks.foldl eraseKV st → e ∈ st ∧ e.1 ∉ ks := by
  intro ks
  induction ks with
  | nil => exact fun st e h => ⟨h, by simp⟩
  | cons k t ih =>
    intro st e h
    obtain ⟨h1, h2⟩ := ih (eraseKV st k) e h
    obtain ⟨h3, h4⟩ := (mem_eraseKV st k e).mp h1
    refine ⟨h3, ?_⟩
    intro hm
    rcases List.mem_cons.mp hm with hm | hm
    · exact h4 hm
    · exact h2 hm

/-- Splitting at a character that does not occur leaves the list whole. -/
theorem jsSplitAux_not_mem (sep : Char) (l : List Char) (h : sep ∉ l) :
    jsSplitAux sep l = [l] := by
  induction l with
  | nil => rfl
  | cons c cs ih =>
    have hc : ¬ c = sep := fun e => h (e ▸ List.mem_cons_self c cs)
    have hcs : sep ∉ cs := fun m => h (List.mem_cons_of_mem _ m)
    simp [jsSplitAux, hc, ih hcs]

/-- Splitting a string free of the separator yields that string alone. -/
theorem jsSplit_not_mem (sep : Char) (s : String) (h : sep ∉ s.data) :
    jsSplit sep s = [s] := by
  simp [jsSplit, jsSplitAux_not_mem sep s.data h]

/-- A positive-length prefix of a non-empty string is non-empty. -/
theorem jsTake_ne_empty (s : String) (n : Nat) (hn : n ≠ 0) (hs : s ≠ "") :
    jsTake s n ≠ "" := by
  intro h
  apply hs
  have hd : s.data.take n = [] := congrArg String.data h
  rcases List.take_eq_nil_iff.mp hd with h1 | h2
  · exact absurd h1 hn
  · exact String.ext h2

/-- C1: the claim is the spec's requirement and the code violates it.  The
stream assembler keeps no buffer across chunk boundaries: delivering the
reference response line whole yields the decoded response event, while
delivering the same bytes split mid-line over two chunks yields no event at
all — the first fragment carries the data prefix but fails to JSON-parse and
is dropped, and the second fragment lacks the prefix and is ignored — so the
assembled result differs between the two chunkings of the same line. -/
theorem stream_chunk_boundary_drops_event :
    parseSSEStream [splitChunkA ++ splitChunkB] =
      [[("type", JsonVal.str "response"), ("content", JsonVal.str "Paris"),
        ("sequence", JsonVal.num 1), ("task_id", JsonVal.str "t1")]] ∧
    parseSSEStream [splitChunkA, splitChunkB] = [] := by
  decide

/-- C2: feeding the assembler the four whole reference lines produces, on
stream completion, a finalized assistant message (isStreaming false) whose
reasoning text is Check and whose content text is Paris is lovely, persisted
behind the user message; the decoded events arrive in stream order with
their types intact. -/
theorem stream_assembler_four_line_script :
    (parseSSEStream exampleLines).map (fun j => jsonGet j "type")
      = [some (JsonVal.str "reasoning"), some (JsonVal.str "response"),
         some (JsonVal.str "response"), some (JsonVal.str "end")] ∧
    (App.handleSendMessage {} exampleChat "What about Paris?" [] "u1" "a1" 7 exampleLines .done).error = none ∧
    ((ChatStorage.getChat (App.handleSendMessage {} exampleChat "What about Paris?" [] "u1" "a1" 7 exampleLines .done).db "c1").map
      fun c => c.messages.map fun m => (m.role, m.content, m.reasoning_content, m.isStreaming))
      = some [("user", "What about Paris?", none, false),
              ("assistant", "Paris is lovely", some "Check", false)] := by
  decide

/-- C3 counterexample: a stream that contains an error-typed event and then
ends normally surfaces no error, and the accumulated assistant message IS
persisted to the local store (with its streamType left at error) — refuting
the claim that an error-typed event leaves no persisted assistant message
and surfaces a visible error. -/
theorem error_event_does_not_block_persistence :
    (App.handleSendMessage {} exampleChat "hi" [] "u1" "a1" 7 [responseLine, errorEventLine] .done).error = none ∧
    ((ChatStorage.getChat (App.handleSendMessage {} exampleChat "hi" [] "u1" "a1" 7 [responseLine, errorEventLine] .done).db "c1").map
      fun c => c.messages.map fun m => (m.role, m.content, m.streamType))
      = some [("user", "hi", none), ("assistant", "Hi", some (JsonVal.str "error"))] := by
  decide

/-- C3 (amended): when the network fails mid-stream, the error message is
surfaced, the in-flight assistant message is discarded (not persisted, and
cleared from the transient state), and the chat stored for that turn holds
exactly the prior messages plus the unchanged user message. -/
theorem network_failure_discards_assistant_message
    (db : DB) (chat : Chat) (content : String) (attachments : List Attachment)
    (userMsgId asstMsgId : String) (now : Nat) (chunks : List String) (msg : String) :
    (App.handleSendMessage db chat content attachments userMsgId asstMsgId now chunks (.netFail msg)).error = some msg ∧
    (App.handleSendMessage db chat content attachments userMsgId asstMsgId now chunks (.netFail msg)).streamingMessage = none ∧
    ∃ stored, ChatStorage.getChat (App.handleSendMessage db chat content attachments userMsgId asstMsgId now chunks (.netFail msg)).db chat.id = some stored ∧
      stored.messages = chat.messages ++
        [{ id := userMsgId, role := "user", content := content, timestamp := now, attachments := attachments }] := by
  exact ⟨rfl, rfl, _, getChat_saveChat_self db _, rfl⟩

/-- C4 counterexample: ChatStorage.deleteChat is not atomic.  In the store
state reached right after its first awaited operation (the second element of
the deletion trace), the chat record is already gone while the chat's
message still exists — an observable intermediate state with orphaned
messages, refuting the no-intermediate-outcome part of the claim.  The final
state of the same run is clean. -/
theorem deleteChat_intermediate_state_not_atomic :
    ((ChatStorage.deleteChatTrace dbCascade "c1")[1]?).map
        (fun s => (ChatStorage.getChat s "c1", (ChatStorage.getMessages s "c1").map Message.id))
      = some (none, ["m1"]) ∧
    ChatStorage.getMessages (ChatStorage.deleteChat dbCascade "c1") "c1" = [] := by
  decide

/-- C4 (amended): deletion does cascade totally by the time the call
completes.  After ChatStorage.deleteChat (given every message record sits
under its own id, which ChatStorage.addMessage guarantees), listing the
chat's messages yields the empty sequence and looking the chat up yields not
found; the single-transaction LocalDB.deleteChat satisfies the same
postcondition unconditionally. -/
theorem deleteChat_cascade_total (db : DB) (ldb : LocalDBState) (chatId : String)
    (hwk : ∀ e ∈ db.messages, e.1 = e.2.id) :
    ChatStorage.getMessages (ChatStorage.deleteChat db chatId) chatId = [] ∧
    ChatStorage.getChat (ChatStorage.deleteChat db chatId) chatId = none ∧
    LocalDB.getMessages (LocalDB.deleteChat ldb chatId) chatId = [] ∧
    lookupKV (LocalDB.deleteChat ldb chatId).chats chatId = none := by
  have hmsgs : (ChatStorage.deleteChat db chatId).messages
      = (ChatStorage.getMessages db chatId).foldl (fun l m => eraseKV l m.id) db.messages := by
    simp only [ChatStorage.deleteChat, foldl_eraseMsg, ChatStorage.getMessages]
  have hchats : (ChatStorage.deleteChat db chatId).chats = eraseKV db.chats chatId := by
    simp only [ChatStorage.deleteChat, foldl_eraseMsg]
  refine ⟨?_, ?_, ?_, ?_⟩
  · have hfil : ((ChatStorage.deleteChat db chatId).messages.filter
        fun e => e.2.chat_id = some chatId) = [] := by
      rw [List.filter_eq_nil_iff]
      intro e he
      rw [hmsgs, ← List.foldl_map Message.id eraseKV] at he
      obtain ⟨h1, h2⟩ := mem_foldl_eraseKV _ _ _ he
      simp only [decide_eq_true_eq]
      intro hchat
      apply h2
      rw [List.mem_map]
      refine ⟨e.2, ?_, (hwk e h1).symm⟩
      have hmem : e.2 ∈ (db.messages.filter fun x => x.2.chat_id = some chatId).map Prod.snd :=
        List.mem_map.mpr ⟨e, List.mem_filter.mpr ⟨h1, by simp [hchat]⟩, rfl⟩
      exact ((getMessages_perm db chatId).mem_iff).mpr hmem
    show (sortByKey ((ChatStorage.deleteChat db chatId).messages.filter
        fun e => e.2.chat_id = some chatId)).map Prod.snd = []
    rw [hfil]
    rfl
  · show lookupKV (ChatStorage.deleteChat db chatId).chats chatId = none
    rw [hchats, lookupKV_eraseKV, if_pos rfl]
  · have hfil : ((LocalDB.deleteChat ldb chatId).messages.filter
        fun e => e.2.chat_id = chatId) = [] := by
      rw [List.filter_eq_nil_iff]
      intro e he
      have := (List.mem_filter.mp he).2
      simp only [decide_eq_true_eq]
      simp only [ne_eq, decide_not, Bool.not_eq_eq_eq_not, Bool.not_true,
        decide_eq_false_iff_not] at this
      exact this
    show ((sortByKey ((LocalDB.deleteChat ldb chatId).messages.filter
        fun e => e.2.chat_id = chatId)).map Prod.snd).insertionSort
        (fun a b => a.created_at ≤ b.created_at) = []
    rw [hfil]
    rfl
  · show lookupKV (eraseKV ldb.chats chatId) chatId = none
    rw [lookupKV_eraseKV, if_pos rfl]

/-- C4 witness: the cascade postcondition evaluated on the concrete
one-chat, one-message stores. -/
theorem deleteChat_cascade_total_witness :
    ChatStorage.getMessages (ChatStorage.deleteChat dbCascade "c1") "c1" = [] ∧
    ChatStorage.getChat (ChatStorage.deleteChat dbCascade "c1") "c1" = none ∧
    LocalDB.getMessages (LocalDB.deleteChat ldbCascade "c1") "c1" = [] ∧
    lookupKV (LocalDB.deleteChat ldbCascade "c1").chats "c1" = none :=
  deleteChat_cascade_total dbCascade ldbCascade "c1" (by decide)

/-- C5 counterexample: ChatStorage.getMessages returns the by-chat index
order — ascending message id — not creation-timestamp order.  After adding a
message with id b at timestamp 0 and then a message with id a at timestamp
1, getMessages returns the timestamps as [1, 0], which is not sorted
ascending. -/
theorem chatstorage_getMessages_not_timestamp_ordered :
    (ChatStorage.getMessages dbMsgOrder "c1").map Message.timestamp = [1, 0] ∧
    ¬ List.Sorted (fun a b : Message => a.timestamp ≤ b.timestamp)
      (ChatStorage.getMessages dbMsgOrder "c1") := by
  constructor
  · decide
  · decide

/-- C5 (amended): the LocalDB variant of the store does satisfy the claim:
for every sequence of saveMessage calls in any insertion order, getMessages
returns exactly the stored messages of that chat (a permutation of the
chat's records) sorted by creation timestamp ascending. -/
theorem localdb_getMessages_sorted_by_created_at (ms : List MessageData) (chatId : String) :
    List.Sorted (fun a b : MessageData => a.created_at ≤ b.created_at)
      (LocalDB.getMessages (ms.foldl LocalDB.saveMessage {}) chatId) ∧
    (LocalDB.getMessages (ms.foldl LocalDB.saveMessage {}) chatId).Perm
      (((ms.foldl LocalDB.saveMessage {}).messages.filter fun e => e.2.chat_id = chatId).map Prod.snd) := by
  constructor
  · haveI ht : IsTotal MessageData (fun a b => a.created_at ≤ b.created_at) :=
      ⟨fun a b => Nat.le_total _ _⟩
    haveI hr : IsTrans MessageData (fun a b => a.created_at ≤ b.created_at) :=
      ⟨fun _ _ _ => Nat.le_trans⟩
    exact List.sorted_insertionSort _ _
  · exact (List.perm_insertionSort _ _).trans ((sortByKey_perm _).map Prod.snd)

/-- C6: saveChat is idempotent — writing the same chat twice leaves the
store exactly as writing it once, with one chat record and one preview
record under that id — and the preview listing contains exactly one entry
for that chat (given every stored preview sits under its own id, which
saveChat itself guarantees). -/
theorem saveChat_idempotent (db : DB) (chat : Chat)
    (hwk : ∀ e ∈ db.chatPreviews, e.1 = e.2.id) :
    ChatStorage.saveChat (ChatStorage.saveChat db chat) chat = ChatStorage.saveChat db chat ∧
    ((ChatStorage.saveChat db chat).chats.countP fun e => e.1 = chat.id) = 1 ∧
    ((ChatStorage.saveChat db chat).chatPreviews.countP fun e => e.1 = chat.id) = 1 ∧
    ((ChatStorage.getAllChatPreviews (ChatStorage.saveChat db chat)).countP
      fun p => p.id = chat.id) = 1 := by
  refine ⟨?_, ?_, ?_, ?_⟩
  · simp [ChatStorage.saveChat, putKV_idem]
  · simp [ChatStorage.saveChat, countP_putKV_self]
  · simp [ChatStorage.saveChat, countP_putKV_self]
  · show (((sortByKey (ChatStorage.saveChat db chat).chatPreviews).map Prod.snd).countP
      fun p => p.id = chat.id) = 1
    rw [List.Perm.countP_eq _ ((sortByKey_perm ((ChatStorage.saveChat db chat).chatPreviews)).map Prod.snd)]
    rw [List.countP_map]
    show (((putKV db.chatPreviews chat.id (ChatStorage.mkPreview chat)).countP
      fun e => e.2.id = chat.id)) = 1
    rw [putKV, List.countP_cons]
    have h0 : ((eraseKV db.chatPreviews chat.id).countP fun e => e.2.id = chat.id) = 0 := by
      rw [List.countP_eq_zero]
      intro e he
      obtain ⟨hmem, hne⟩ := (mem_eraseKV _ _ _).mp he
      simp only [decide_eq_true_eq]
      intro hc
      exact hne ((hwk e hmem).trans hc)
    rw [h0]
    simp [ChatStorage.mkPreview]

/-- C6 witness: idempotence and duplicate-freeness evaluated on a concrete
chat written into the empty store. -/
theorem saveChat_idempotent_witness :
    ChatStorage.saveChat (ChatStorage.saveChat {} chatFix) chatFix = ChatStorage.saveChat {} chatFix ∧
    ((ChatStorage.saveChat {} chatFix).chats.countP fun e => e.1 = chatFix.id) = 1 ∧
    ((ChatStorage.saveChat {} chatFix).chatPreviews.countP fun e => e.1 = chatFix.id) = 1 ∧
    ((ChatStorage.getAllChatPreviews (ChatStorage.saveChat {} chatFix)).countP
      fun p => p.id = chatFix.id) = 1 :=
  saveChat_idempotent {} chatFix (by decide)

/-- C7: createNewChat of the chat context returns the locally generated,
local_-prefixed identifier whatever the remote outcome; the chat is written
to the local store and heads the in-memory chat list under that identifier
both when the remote create fails and when it succeeds (in the latter case
with the reconciled title). -/
theorem createNewChat_local_first_usable (st : ChatProvider.CtxState) (userId : String)
    (now : Nat) (welcomeContent : String) (remote : Option ChatPreview) :
    (ChatProvider.createNewChat st userId now welcomeContent remote).2 = "local_" ++ toString now ∧
    ((ChatProvider.createNewChat st userId now welcomeContent remote).1.chatHistory.head?).map ChatPreview.id
      = some ("local_" ++ toString now) ∧
    ∃ c, lookupKV (ChatProvider.createNewChat st userId now welcomeContent remote).1.db.chats
        ("local_" ++ toString now) = some c := by
  cases remote with
  | none =>
    refine ⟨rfl, rfl, ?_⟩
    exact ⟨_, lookupKV_putKV_self _ _ _⟩
  | some supabaseChat =>
    refine ⟨rfl, by simp [ChatProvider.createNewChat], ?_⟩
    show ∃ c, lookupKV (putKV (putKV st.db.chats ("local_" ++ toString now) _) supabaseChat.id supabaseChat)
        ("local_" ++ toString now) = some c
    rw [lookupKV_putKV]
    by_cases h : ("local_" ++ toString now) = supabaseChat.id
    · exact ⟨supabaseChat, by rw [if_pos h]⟩
    · rw [if_neg h, lookupKV_putKV_self]
      exact ⟨_, rfl⟩

/-- C8: a line that carries the event prefix, contains no newline, and fails
to JSON-parse contributes nothing and changes nothing else: the whole send
interaction — every event decoded from the surrounding chunks, the assembled
assistant message, and the completion handling with its persistence — is
identical with and without the malformed line. -/
theorem malformed_line_dropped_stream_continues
    (db : DB) (chat : Chat) (content : String) (attachments : List Attachment)
    (userMsgId asstMsgId : String) (now : Nat)
    (chunks1 chunks2 : List String) (bad : String)
    (hnl : '\n' ∉ bad.data)
    (hpre : jsStartsWith bad "data: " = true)
    (hbad : jsonParse (jsSlice bad 6) = none) :
    App.handleSendMessage db chat content attachments userMsgId asstMsgId now (chunks1 ++ bad :: chunks2) .done
      = App.handleSendMessage db chat content attachments userMsgId asstMsgId now (chunks1 ++ chunks2) .done := by
  have hev : parseSSEStream (chunks1 ++ bad :: chunks2) = parseSSEStream (chunks1 ++ chunks2) := by
    simp only [parseSSEStream, List.flatMap_append, List.flatMap_cons]
    rw [jsSplit_not_mem '\n' bad hnl]
    simp [sseLineEvents, hpre, hbad]
  simp only [App.handleSendMessage, hev]

/-- C8 witness: inserting a concrete truncated-JSON line between two
well-formed lines leaves the send interaction unchanged. -/
theorem malformed_line_dropped_stream_continues_witness :
    App.handleSendMessage {} exampleChat "hi" [] "u1" "a1" 3
        ([responseLine] ++ "data: \x7b\"type\":" :: [errorEventLine]) .done
      = App.handleSendMessage {} exampleChat "hi" [] "u1" "a1" 3
        ([responseLine] ++ [errorEventLine]) .done :=
  malformed_line_dropped_stream_continues {} exampleChat "hi" [] "u1" "a1" 3
    [responseLine] [errorEventLine] "data: \x7b\"type\":" (by decide) (by decide) (by decide)

/-- C9 counterexample: the submit guard lets an attachment-only message
through with empty trimmed text, and sending it as the first message of a
chat stores the chat with an empty title — refuting the invariant that the
title is never empty after the first message, whatever its content and
attachments. -/
theorem attachment_only_first_message_empty_title :
    handleSubmitAllows "" [exampleAttachment] false false false = true ∧
    ((ChatStorage.getChat (App.handleSendMessage {} exampleChat (jsTrim "") [exampleAttachment] "u1" "a1" 5 [] .done).db "c1").map
      Chat.title) = some "" := by
  decide

/-- C9 (amended): whenever the first message's content is non-empty, the
stored chat's title after sendMessage is non-empty (it is the first 50 code
units of the content), for both stream outcomes. -/
theorem first_message_nonempty_content_gives_nonempty_title
    (db : DB) (chat : Chat) (content : String) (attachments : List Attachment)
    (userMsgId asstMsgId : String) (now : Nat) (chunks : List String) (ending : StreamEnd)
    (hfirst : chat.messages = [])
    (hcontent : content ≠ "") :
    ∃ stored, ChatStorage.getChat
        (App.handleSendMessage db chat content attachments userMsgId asstMsgId now chunks ending).db chat.id
        = some stored ∧ stored.title ≠ "" := by
  have htitle : jsTake content 50 ≠ "" := jsTake_ne_empty content 50 (by decide) hcontent
  cases ending with
  | netFail msg =>
    refine ⟨_, getChat_saveChat_self db _, ?_⟩
    simpa [hfirst] using htitle
  | done =>
    refine ⟨_, getChat_saveChat_self _ _, ?_⟩
    simpa [hfirst] using htitle

/-- C9 witness: a concrete first send with non-empty content yields a
non-empty stored title. -/
theorem first_message_nonempty_content_gives_nonempty_title_witness :
    ∃ stored, ChatStorage.getChat
        (App.handleSendMessage {} exampleChat "Hello" [] "u1" "a1" 5 [] .done).db exampleChat.id
        = some stored ∧ stored.title ≠ "" :=
  first_message_nonempty_content_gives_nonempty_title {} exampleChat "Hello" [] "u1" "a1" 5 [] .done
    (by decide) (by decide)

/-- C10: applying a decoded event whose type is neither reasoning nor
response (in particular end and error events) to the in-flight assistant
message changes nothing but the streamType field — the content and reasoning
accumulators and every other field are untouched. -/
theorem non_content_event_updates_only_streamType (m : Message) (j : JsonObj)
    (h1 : jsonGet j "type" ≠ some (JsonVal.str "reasoning"))
    (h2 : jsonGet j "type" ≠ some (JsonVal.str "response")) :
    applyEvent m j = { m with streamType := jsonGet j "type" } := by
  simp [applyEvent, h1, h2]

/-- C10 witness: the reference end event applied to a partially accumulated
assistant message only rewrites streamType. -/
theorem non_content_event_updates_only_streamType_witness :
    applyEvent { id := "a1", role := "assistant", content := "Paris", reasoning_content := some "Check" }
        [("type", JsonVal.str "end"), ("content", JsonVal.str ""), ("sequence", JsonVal.num 3), ("task_id", JsonVal.str "t1")]
      = { id := "a1", role := "assistant", content := "Paris", reasoning_content := some "Check",
          streamType := some (JsonVal.str "end") } :=
  non_content_event_updates_only_streamType _ _ (by decide) (by decide)
